import Mathlib

/-!
Shallow embedding, in Lean 4, of the telemetry-normalization and
electrochemical-analysis core of the BatteryForgeAI repository:

* `backend/services/charging_service.py` — cycling metrics
  (`calculate_metrics`), the deterministic safety scorer
  (`calculate_scientific_safety`) and the physical-plausibility voltage
  corrector inside `parse_cycling_data`;
* `backend/services/eis_service.py` — `process_eis_file`'s Nyquist point
  formatting and ECM step, and the deterministic phase of
  `fit_randles_circuit`;
* `backend/battery_forge_agent/tools/data_tools.py` — the multi-layer
  impedance diagnoser `analyze_eis_spectrum`.

Numbers are idealized as exact rationals (`ℚ`): Python floats carry no
exact decimal semantics, and every claim below is about the exact
arithmetic the source expresses.  Python's `round` (banker's rounding) is
modelled by `rnd`/`roundTo`.  The two places where the source computes a
real square root (the pandas standard deviation compared against `0.0001`,
and the RMSE of the physics branch of the safety scorer) are embedded,
respectively, by the equivalent variance comparison (`std < 1e-4` iff
`var < 1e-8`, both sides being nonnegative) and by abstracting the RMSE
value as a parameter of the scorer.
-/

/-! ## Generic numeric helpers -/

/-- Character-list version of `needle.isPrefixOf hay`. -/
def chPre : List Char → List Char → Bool
  | [], _ => true
  | _ :: _, [] => false
  | a :: as, b :: bs => a = b && chPre as bs

/-- Character-list substring test, as Python's `needle in hay`. -/
def chSub (needle : List Char) : List Char → Bool
  | [] => needle.isEmpty
  | h :: t => chPre needle (h :: t) || chSub needle t

/-- Python's `sub in s` substring containment on strings. -/
def hasSub (s sub : String) : Bool := chSub sub.data s.data

/-- Python's `str.lower()` (the source's column names are ASCII). -/
def lowerStr (s : String) : String := ⟨s.data.map Char.toLower⟩

/-- Sum of a list of rationals (`np.sum` / Python `sum`). -/
def qsum (xs : List ℚ) : ℚ := xs.foldr (· + ·) 0

/-- Arithmetic mean of a list (`np.mean`, pandas `.mean()` on clean data).
On the empty list this is `0/0 = 0` in `ℚ`; all uses below are guarded the
way the source is. -/
def meanQ (xs : List ℚ) : ℚ := qsum xs / xs.length

/-- Population variance (`np.var`, `ddof = 0`). -/
def popVar (xs : List ℚ) : ℚ :=
  qsum (xs.map fun x => (x - meanQ xs) ^ 2) / xs.length

/-- Sample variance (`ddof = 1`), the square of pandas `Series.std()`. -/
def sampleVar (xs : List ℚ) : ℚ :=
  qsum (xs.map fun x => (x - meanQ xs) ^ 2) / ((xs.length : ℚ) - 1)

/-- Consecutive differences (`np.diff`). -/
def diffs : List ℚ → List ℚ
  | a :: b :: t => (b - a) :: diffs (b :: t)
  | _ => []

/-- Minimum of a nonempty list, `0` on the empty list (Python `min`,
`np.min`; every use below is guarded by nonemptiness the way the source
is). -/
def listMinD : List ℚ → ℚ
  | [] => 0
  | x :: xs => xs.foldl min x

/-- Maximum of a nonempty list, `0` on the empty list (Python `max`,
`np.max`). -/
def listMaxD : List ℚ → ℚ
  | [] => 0
  | x :: xs => xs.foldl max x

/-- Index of the first occurrence of the maximum, helper. -/
def argmaxGo (bi : Nat) (bv : ℚ) (i : Nat) : List ℚ → Nat
  | [] => bi
  | x :: xs => if bv < x then argmaxGo i x (i + 1) xs else argmaxGo bi bv (i + 1) xs

/-- Index of the first occurrence of the maximum (`np.argmax`); `0` on the
empty list. -/
def argmaxIdx : List ℚ → Nat
  | [] => 0
  | x :: xs => argmaxGo 0 x 1 xs

/-- Python's `round` to an integer: round half to even (banker's
rounding), on the exact rational idealization of the float. -/
def rnd (q : ℚ) : ℤ :=
  let f := ⌊q⌋
  let r := q - f
  if r < 1 / 2 then f
  else if 1 / 2 < r then f + 1
  else if f % 2 = 0 then f else f + 1

/-- Python's `round(q, n)` on the rational idealization. -/
def roundTo (n : ℕ) (q : ℚ) : ℚ := (rnd (q * 10 ^ n) : ℚ) / 10 ^ n

/-- Trapezoidal integral `np.trapezoid(y, x)`: sum of
`(x1 - x0) * (y0 + y1) / 2` over consecutive pairs. -/
def trapz : List ℚ → List ℚ → ℚ
  | y0 :: y1 :: ys, x0 :: x1 :: xs =>
      (x1 - x0) * (y0 + y1) / 2 + trapz (y1 :: ys) (x1 :: xs)
  | _, _ => 0

/-! ## Cycling metrics (`ChargingService.calculate_metrics`) -/

/-- Row of a standardized cycling table (`time`, `voltage`, `current`). -/
structure CyclingRow where
  time : ℚ
  voltage : ℚ
  current : ℚ
deriving DecidableEq, Repr

/-- Derived metrics record returned by `calculate_metrics`. -/
structure CyclingMetrics where
  capacity_ah : ℚ
  energy_wh : ℚ
  duration_minutes : ℚ
  avg_voltage : ℚ
  max_current : ℚ
deriving DecidableEq, Repr

/-- Insertion of a row into a time-sorted list, keeping equal-time rows in
place (the source's `df.sort_values('time')`; ties in `time` are not
exercised by any claim below). -/
def insertByTime (r : CyclingRow) : List CyclingRow → List CyclingRow
  | [] => [r]
  | h :: t => if r.time < h.time then r :: h :: t else h :: insertByTime r t

/-- Sort rows ascending by time. -/
def sortByTime : List CyclingRow → List CyclingRow
  | [] => []
  | h :: t => insertByTime h (sortByTime t)

/-- Embedding of `ChargingService.calculate_metrics`.  After sorting by
time the source immediately evaluates `time_s[0]` (building `dt` with
`np.diff(..., prepend=time_s[0])`), which on an empty table raises
`IndexError`; the embedding returns that failure through `Except`.  On a
nonempty table it returns the five rounded metrics exactly as the source
computes them: trapezoidal integrals of `|I|` and `|V·I|` over time divided
by 3600, duration in minutes, mean voltage, max `|I|`; capacity and energy
rounded to 4 decimals, duration and max current to 2, average voltage to 3. -/
def calculate_metrics (rows : List CyclingRow) : Except String CyclingMetrics :=
  let s := sortByTime rows
  match s with
  | [] => .error "IndexError: index 0 is out of bounds for axis 0 with size 0"
  | r0 :: rest =>
      let ts := (r0 :: rest).map CyclingRow.time
      let vs := (r0 :: rest).map CyclingRow.voltage
      let cs := (r0 :: rest).map CyclingRow.current
      let charge_ah := trapz (cs.map (fun x => |x|)) ts / 3600
      let energy_wh := trapz ((cs.zip vs).map fun p => |p.1 * p.2|) ts / 3600
      let duration_s := ts.getLastD 0 - ts.headD 0
      .ok
        { capacity_ah := roundTo 4 charge_ah
          energy_wh := roundTo 4 energy_wh
          duration_minutes := roundTo 2 (duration_s / 60)
          avg_voltage := roundTo 3 (meanQ vs)
          max_current := roundTo 2 (listMaxD (cs.map (fun x => |x|))) }

/-! ## Deterministic safety scorer (`calculate_scientific_safety`) -/

/-- Stability penalty of the safety scorer:
`min(40, np.var(np.diff(v)) * 10000 * 10)`.  When the voltage series has
fewer than two points, `np.diff` is empty and `np.var` is NaN; Python's
`min(40, nan)` then evaluates to `40` (the comparison `nan < 40` is
false), which the embedding states explicitly. -/
def stability_penalty (v : List ℚ) : ℚ :=
  match diffs v with
  | [] => 40
  | d => min 40 (popVar d * 10000 * 10)

/-- Physics-deviation penalty at a given RMSE:
`max(0, min(40, rmse * 100))`. -/
def rmse_penalty (rmse : ℚ) : ℚ := max 0 (min 40 (rmse * 100))

/-- Score of the no-reference branch before clamping and rounding: the
source subtracts the stability penalty, then, lacking a physics reference,
subtracts it again. -/
def safety_raw_noref (v : List ℚ) : ℚ :=
  100 - stability_penalty v - stability_penalty v

/-- Result of the safety scorer: clamped score plus breakdown terms
(`physics_deviation_penalty` is absent from the breakdown when no physics
reference was supplied, hence an `Option`). -/
structure SafetyAudit where
  score : ℚ
  voltage_stability_penalty : ℚ
  physics_deviation_penalty : Option ℚ
deriving DecidableEq, Repr

/-- Embedding of `ChargingService.calculate_scientific_safety`.  The
physics branch's interpolation of the twin trace onto the overlapping time
window is a real-number computation ending in an RMSE (a square root); it
is abstracted as the pair `(overlap count, rmse)` handed to the scorer,
`none` when no physics twin is supplied.  Everything else follows the
source: start at 100, subtract the stability penalty, then either subtract
`max(0, min(40, rmse*100))` when the overlap has more than 10 points,
subtract nothing when it does not, or — with no reference at all —
subtract the stability penalty a second time; finally
`max(0, round(score, 1))`. -/
def calculate_scientific_safety (v : List ℚ) (phys : Option (ℕ × ℚ)) : SafetyAudit :=
  let sp := stability_penalty v
  match phys with
  | some (overlap, rmse) =>
      if 10 < overlap then
        let rp := rmse_penalty rmse
        { score := max 0 (roundTo 1 (100 - sp - rp))
          voltage_stability_penalty := roundTo 1 sp
          physics_deviation_penalty := some (roundTo 1 rp) }
      else
        { score := max 0 (roundTo 1 (100 - sp))
          voltage_stability_penalty := roundTo 1 sp
          physics_deviation_penalty := some 0 }
  | none =>
      { score := max 0 (roundTo 1 (100 - sp - sp))
        voltage_stability_penalty := roundTo 1 sp
        physics_deviation_penalty := none }

/-! ## Physical plausibility corrector (inside `parse_cycling_data`)

The corrector operates on the mapped dataframe: an ordered association
list of named columns.  A cell is `Option ℚ` — `none` is a NaN produced by
`pd.to_numeric(..., errors='coerce')`; pandas `mean`/`std` skip NaNs.
-/

/-- Named column of a dataframe. -/
abbrev NamedCol := String × List (Option ℚ)

/-- Values of a column with NaNs dropped (what pandas reductions see). -/
def colClean (v : List (Option ℚ)) : List ℚ := v.filterMap id

/-- First column with the given label (`df[name]`). -/
def lookupCol (df : List NamedCol) (name : String) : Option (List (Option ℚ)) :=
  (df.find? (fun c => c.1 = name)).map Prod.snd

/-- Number of rows, read off the first column (all columns of a dataframe
have equal length). -/
def numRows (df : List NamedCol) : Nat :=
  match df with
  | [] => 0
  | c :: _ => c.2.length

/-- Relabel a column (`df.rename(columns={old: new})`). -/
def renameCol (df : List NamedCol) (old new : String) : List NamedCol :=
  df.map fun c => if c.1 = old then (new, c.2) else c

/-- Substrings whose presence in a lowercased column name excludes it from
the candidate scan. -/
def excludedSubnames : List String :=
  ["mode", "status", "step", "index", "flag", "state", "time", "soc", "cap",
   "energy", "wh", "ah", "temp", "current", "amp", "cycle"]

/-- Exclusion test of the scan, on the lowercased name: any listed
substring, or an exact match of `i`/`current`/`cur`. -/
def isExcludedName (cl : String) : Bool :=
  excludedSubnames.any (fun s => hasSub cl s) ||
    (cl = "i" || cl = "current" || cl = "cur")

/-- Mean-based score of a candidate: `+50` for a cell-like mean strictly
between 2 and 5, else `+20` for a module/pack-like mean strictly between
10 and 900, else `0`. -/
def meanBonus (m : ℚ) : ℤ :=
  if 2 < m ∧ m < 5 then 50
  else if 10 < m ∧ m < 900 then 20
  else 0

/-- Name-based score of a candidate, on the lowercased name.  The source
is an `if`/`elif` chain, so exactly one branch fires:
`+100` for `volt` or `v_meas`, else `+100` for `u_meas`, else `+5` for
`meas`, else `0`. -/
def nameBonus (cl : String) : ℤ :=
  if hasSub cl "volt" || hasSub cl "v_meas" then 100
  else if hasSub cl "u_meas" then 100
  else if hasSub cl "meas" then 5
  else 0

/-- Low-variance penalty: `-50` when the pandas standard deviation is
below `0.0001`.  `Series.std()` uses `ddof = 1` and is NaN on fewer than
two clean values (a NaN comparison is false, so no penalty); otherwise
`std < 1e-4` holds iff the sample variance is below `1e-8`, both sides
being nonnegative. -/
def stdPenalty (vals : List ℚ) : ℤ :=
  if vals.length ≤ 1 then 0
  else if sampleVar vals < 1 / 100000000 then -50
  else 0

/-- Total score the corrector assigns to a candidate column. -/
def colScore (name : String) (v : List (Option ℚ)) : ℤ :=
  meanBonus (meanQ (colClean v)) + nameBonus (lowerStr name) + stdPenalty (colClean v)

/-- Candidate scan of the corrector, in column order: skip the `voltage`
column itself, skip all-NaN columns, skip excluded names, score the rest,
and keep `(score, name)` for strictly positive scores. -/
def scanCandidates (df : List NamedCol) : List (ℤ × String) :=
  df.filterMap fun c =>
    if c.1 = "voltage" then none
    else if (colClean c.2).isEmpty then none
    else if isExcludedName (lowerStr c.1) then none
    else
      let s := colScore c.1 c.2
      if 0 < s then some (s, c.1) else none

/-- Winner of the scan: the source sorts descending by score with a
stable sort and takes the head, i.e. the earliest-scanned column of
maximal score. -/
def bestCandidate (cands : List (ℤ × String)) : Option String :=
  match cands with
  | [] => none
  | h :: t => some (t.foldl (fun acc x => if acc.1 < x.1 then x else acc) h).2

/-- Maximum of a column under pandas `max` (skips NaN; `none` when every
cell is NaN). -/
def colMaxClean (v : List (Option ℚ)) : Option ℚ :=
  match colClean v with
  | [] => none
  | x :: xs => some (xs.foldl max x)

/-- Embedding of the sanity-check block of `parse_cycling_data`: when the
mapped voltage column has a maximum above 100, scan for a replacement; on
success relabel `voltage` to `bad_voltage_mapped` and the winner to
`voltage`; with no positive-score candidate overwrite `voltage` with the
constant `0.0`.  A NaN-valued maximum compares false against 100, leaving
the frame unchanged, as does an absent voltage column (unreachable after
mapping validation). -/
def voltage_sanity (df : List NamedCol) : List NamedCol :=
  match lookupCol df "voltage" with
  | none => df
  | some v =>
      match colMaxClean v with
      | none => df
      | some m =>
          if 100 < m then
            match bestCandidate (scanCandidates df) with
            | some best => renameCol (renameCol df "voltage" "bad_voltage_mapped") best "voltage"
            | none =>
                df.map fun c =>
                  if c.1 = "voltage" then ("voltage", List.replicate (numRows df) (some (0 : ℚ)))
                  else c
          else df

/-- Projection and NaN-row filtering of the parser's return value,
`df[['time', 'voltage', 'current']].dropna()`: keep exactly the three
required columns, dropping every row with a NaN in any of them. -/
def projectRequired (df : List NamedCol) : List NamedCol :=
  let t := (lookupCol df "time").getD []
  let v := (lookupCol df "voltage").getD []
  let c := (lookupCol df "current").getD []
  let rows := ((t.zip v).zip c).filterMap fun p =>
    match p with
    | ((some a, some b), some d) => some (a, b, d)
    | _ => none
  [("time", rows.map fun r => some r.1),
   ("voltage", rows.map fun r => some r.2.1),
   ("current", rows.map fun r => some r.2.2)]

/-- Tail of `parse_cycling_data` after column mapping and numeric
coercion: run the plausibility corrector, fill any still-missing required
column with `0.0` (last-mile safety), and return the projected,
NaN-filtered frame. -/
def parse_cycling_tail (df0 : List NamedCol) : List NamedCol :=
  let df1 := voltage_sanity df0
  let df2 := ["time", "voltage", "current"].foldl
    (fun acc req =>
      match lookupCol acc req with
      | some _ => acc
      | none => acc ++ [(req, List.replicate (numRows acc) (some (0 : ℚ)))])
    df1
  projectRequired df2

/-! ## EIS service (`process_eis_file` / `fit_randles_circuit`) -/

/-- Point of the Nyquist payload or of the reconstructed fit curve. -/
structure NyquistPoint where
  freq : ℚ
  z_real : ℚ
  z_imag : ℚ
  y_plot : ℚ
deriving DecidableEq, Repr

/-- Plot-oriented y-value used by both formatting loops of the EIS
service: `-z_imag` when `z_imag < 0`, else `z_imag`. -/
def y_plot_of (zi : ℚ) : ℚ := if zi < 0 then -zi else zi

/-- Nyquist formatting loop of `process_eis_file`, over the parsed
`(freq, z_real, z_imag)` triples. -/
def format_nyquist_data (pts : List (ℚ × ℚ × ℚ)) : List NyquistPoint :=
  pts.map fun p => ⟨p.1, p.2.1, p.2.2, y_plot_of p.2.2⟩

/-- Fit-curve formatting loop of `fit_randles_circuit`, over the model
curve samples `(freq, Re Z, Im Z)`; the real-valued model evaluation at
the 50 log-spaced frequencies is abstracted as the sample list, the
conditional on the imaginary part being the code under study. -/
def format_fit_curve (samples : List (ℚ × ℚ × ℚ)) : List NyquistPoint :=
  samples.map fun p => ⟨p.1, p.2.1, p.2.2, if p.2.2 < 0 then -p.2.2 else p.2.2⟩

/-- Deterministic phase of `fit_randles_circuit` before the
`least_squares` call: convert the lists, form `ω = 2πf` (kept symbolic —
it is not consulted before the optimizer), and build the initial guess
`x0 = [min(Re Z), max(Re Z) - min(Re Z), 1e-4, 10.0]`.  The only
exception this phase can raise is Python's `ValueError` from `min()` /
`max()` on an empty sequence; in particular the source contains no check
of the number of points and no check for identical frequencies before
handing the problem to the optimizer. -/
def fit_randles_setup (f zr zi : List ℚ) : Except String (List ℚ) :=
  match zr with
  | [] => .error "ValueError: min() arg is an empty sequence"
  | _ => .ok [listMinD zr, listMaxD zr - listMinD zr, 1 / 10000, 10]

/-- Following the spec's words, for comparison with the source: a
`FitError` is said to arise "if fewer than 4 points" or "all frequencies
identical". -/
def spec_fit_error_condition (f : List ℚ) : Bool :=
  decide (f.length < 4) || (match f with
    | [] => true
    | x :: xs => xs.all fun y => y = x)

/-- Impedance response assembled at the end of `process_eis_file`: the
ECM step wraps `fit_randles_circuit` in `try`/`except`, storing `None` on
any exception, and the diagnosis computed earlier is returned either way. -/
structure EisResponse (α β : Type) where
  dataset_type : String
  nyquist_data : List NyquistPoint
  ecm_fit : Option α
  analysis : β
deriving Repr

/-- Embedding of the tail of `process_eis_file`: given the diagnosis and
the outcome of the fitter (a value, or the exception it raised), build the
response with `ecm_fit = None` exactly when the fitter raised. -/
def assemble_eis_response {α β : Type} (ny : List NyquistPoint) (diag : β)
    (fit : Except String α) : EisResponse α β :=
  { dataset_type := "EIS"
    nyquist_data := ny
    ecm_fit := fit.toOption
    analysis := diag }

/-- Residual stacking of the Randles fitter:
`np.concatenate([res_real, res_imag])`. -/
def stackResiduals (res_real res_imag : List ℚ) : List ℚ := res_real ++ res_imag

/-- Sum of squared entries of a residual vector. -/
def ssr (rs : List ℚ) : ℚ := qsum (rs.map fun r => r * r)

/-- Cost reported by `scipy.optimize.least_squares` at the solution:
scipy minimizes `F(x) = 0.5 * sum(f_i(x)^2)` and `res.cost` is the value
of that function, i.e. half the sum of squared residuals. -/
def least_squares_cost (rs : List ℚ) : ℚ := ssr rs / 2

/-- Value the source stores as `fit_quality`: `float(res.cost)` at the
fitted parameters, expressed on the residual vector at the solution. -/
def fit_quality_of (rs : List ℚ) : ℚ := least_squares_cost rs

/-! ## Multi-layer impedance diagnoser (`analyze_eis_spectrum`) -/

/-- Layer entry of the diagnosis (status plus rounded resistance). -/
structure EisLayer where
  status : String
  value_ohm : ℚ
deriving DecidableEq, Repr

/-- Multi-layer diagnosis returned by `analyze_eis_spectrum`. -/
structure EisDiagnosis where
  ohmic : EisLayer
  kinetics : EisLayer
  diffusion_status : String
  overall_health : String
  data_points : Nat
deriving DecidableEq, Repr

/-- Least-squares slope of a degree-1 fit (`np.polyfit(x, y, 1)[0]`) for
non-degenerate abscissae:
`(n·Σxy − Σx·Σy) / (n·Σx² − (Σx)²)`.  With degenerate `x` numpy's result
is a warning-laden artefact; the `ℚ` division then yields `0`.  No claim
below exercises the slope. -/
def polyfitSlope (xs ys : List ℚ) : ℚ :=
  let n : ℚ := xs.length
  (n * qsum ((xs.zip ys).map fun p => p.1 * p.2) - qsum xs * qsum ys) /
    (n * qsum (xs.map fun x => x * x) - qsum xs * qsum xs)

/-- Embedding of `analyze_eis_spectrum` from
`battery_forge_agent/tools/data_tools.py`, faithful to the band logic of
the source: HIGH band `freq > 1000` (ohmic: minimum of `Re Z` over the
band, Normal below `0.1` else Warning; with an empty band, `Re Z` of the
*first* input point — `real[0]` — and status "Estimated"); MID band
`1 ≤ freq ≤ 1000` (kinetics: `Re Z` at the first maximum of `|Im Z|`
minus the ohmic value, thresholds `0.5`/`1.0`; "Insufficient data" when
empty); LOW band `freq < 1` (diffusion: slope test for more than two
points, else "Insufficient data"; "No low-freq data" when empty); and the
overall-health combination.  Points are the positional zip of the three
input lists, as numpy's parallel masking requires equal lengths. -/
def analyze_eis_spectrum (frequency z_real z_imag : List ℚ) : EisDiagnosis :=
  let pts := frequency.zip (z_real.zip z_imag)
  let high := pts.filter fun p => 1000 < p.1
  let r_ohmic := if high.isEmpty then z_real.headD 0
    else listMinD (high.map fun p => p.2.1)
  let ohmic_status := if high.isEmpty then "Estimated"
    else if r_ohmic < 1 / 10 then "Normal" else "Warning"
  let mid := pts.filter fun p => 1 ≤ p.1 ∧ p.1 ≤ 1000
  let (r_ct, kinetics_status) :=
    if mid.isEmpty then ((0 : ℚ), "Insufficient data")
    else
      let z_real_mid := mid.map fun p => p.2.1
      let z_imag_mid := mid.map fun p => |p.2.2|
      let peak := argmaxIdx z_imag_mid
      let rct := if peak < z_real_mid.length
        then z_real_mid.getD peak 0 - r_ohmic else 0
      (rct, if rct < 1 / 2 then "Normal" else if rct < 1 then "Degraded" else "Critical")
  let low := pts.filter fun p => p.1 < 1
  let diffusion_status :=
    if low.isEmpty then "No low-freq data"
    else if 2 < low.length then
      let slope := polyfitSlope (low.map fun p => p.2.1) (low.map fun p => |p.2.2|)
      if 4 / 5 < slope ∧ slope < 6 / 5 then "Normal" else "Anomalous"
    else "Insufficient data"
  let overall :=
    if ohmic_status = "Normal" ∧ kinetics_status = "Normal" ∧ diffusion_status = "Normal"
      then "Healthy"
    else if kinetics_status = "Critical" ∨ ohmic_status = "Warning" then "Degraded"
    else "Minor Issues"
  { ohmic := ⟨ohmic_status, roundTo 4 r_ohmic⟩
    kinetics := ⟨kinetics_status, roundTo 4 r_ct⟩
    diffusion_status := diffusion_status
    overall_health := overall
    data_points := frequency.length }

/-- Following the claim's words, for comparison with the source: the real
part of the impedance at the single highest-frequency point of the
spectrum. -/
def re_at_max_freq (frequency z_real : List ℚ) : ℚ :=
  z_real.getD (argmaxIdx frequency) 0

/-! ## Shared lemmas -/

lemma qsum_nonneg {xs : List ℚ} (h : ∀ x ∈ xs, 0 ≤ x) : 0 ≤ qsum xs := by
  induction xs with
  | nil => simp [qsum]
  | cons a t ih =>
      have ha : 0 ≤ a := h a (List.mem_cons_self a t)
      have ht : 0 ≤ qsum t := ih fun x hx => h x (List.mem_cons_of_mem a hx)
      show 0 ≤ a + qsum t
      linarith

lemma popVar_nonneg (xs : List ℚ) : 0 ≤ popVar xs := by
  unfold popVar
  apply div_nonneg
  · apply qsum_nonneg
    intro x hx
    obtain ⟨y, _, rfl⟩ := List.mem_map.mp hx
    positivity
  · exact_mod_cast Nat.zero_le xs.length

lemma stability_penalty_nonneg (v : List ℚ) : 0 ≤ stability_penalty v := by
  unfold stability_penalty
  cases h : diffs v with
  | nil => norm_num
  | cons d t =>
      have := popVar_nonneg (d :: t)
      apply le_min (by norm_num)
      positivity

lemma rmse_penalty_nonneg (r : ℚ) : 0 ≤ rmse_penalty r := le_max_left 0 _

lemma rnd_le_add_half (q : ℚ) : (rnd q : ℚ) ≤ q + 1 / 2 := by
  unfold rnd
  have hf : (⌊q⌋ : ℚ) ≤ q := Int.floor_le q
  by_cases h1 : q - ⌊q⌋ < 1 / 2
  · simp only [h1, if_true]
    linarith
  · by_cases h2 : 1 / 2 < q - ⌊q⌋
    · simp only [h1, if_false, h2, if_true]
      push_cast
      linarith
    · have heq : q - ⌊q⌋ = 1 / 2 := le_antisymm (not_lt.mp h2) (not_lt.mp h1)
      simp only [h1, if_false, h2]
      by_cases h3 : ⌊q⌋ % 2 = 0
      · simp only [h3, if_true]
        linarith
      · simp only [h3, if_false]
        push_cast
        linarith

lemma max_zero_intCast_div (k : ℤ) :
    max 0 ((k : ℚ) / 10) = ((max 0 k : ℤ) : ℚ) / 10 := by
  rcases le_total k 0 with h | h
  · rw [max_eq_left, max_eq_left h]
    · norm_num
    · apply div_nonpos_of_nonpos_of_nonneg
      · exact_mod_cast h
      · norm_num
  · rw [max_eq_right, max_eq_right h]
    apply div_nonneg
    · exact_mod_cast h
    · norm_num

lemma clamp_round_props (x : ℚ) (hx : x ≤ 100) :
    0 ≤ max 0 (roundTo 1 x) ∧ max 0 (roundTo 1 x) ≤ 100 ∧
      ∃ k : ℤ, max 0 (roundTo 1 x) = (k : ℚ) / 10 := by
  have hub : roundTo 1 x ≤ 100 := by
    unfold roundTo
    set k : ℤ := rnd (x * 10 ^ 1) with hk
    have h1 : (k : ℚ) ≤ x * 10 ^ 1 + 1 / 2 := rnd_le_add_half (x * 10 ^ 1)
    have h2 : (k : ℚ) ≤ 2001 / 2 := by
      have : x * 10 ^ 1 ≤ 1000 := by nlinarith
      linarith
    have h3 : (k : ℚ) * 2 ≤ 2001 := by linarith
    have h4 : k * 2 ≤ 2001 := by exact_mod_cast h3
    have h5 : k ≤ 1000 := by omega
    rw [div_le_iff₀ (by norm_num : (0 : ℚ) < 10 ^ 1)]
    calc (k : ℚ) ≤ 1000 := by exact_mod_cast h5
    _ = 100 * 10 ^ 1 := by norm_num
  refine ⟨le_max_left 0 _, max_le (by norm_num) hub, ?_⟩
  refine ⟨max 0 (rnd (x * 10 ^ 1)), ?_⟩
  have : roundTo 1 x = ((rnd (x * 10 ^ 1) : ℤ) : ℚ) / 10 := by
    unfold roundTo
    norm_num
  rw [this, max_zero_intCast_div]

lemma if_lt_zero_neg_eq_abs (zi : ℚ) : (if zi < 0 then -zi else zi) = |zi| := by
  by_cases h : zi < 0
  · rw [if_pos h, abs_of_neg h]
  · rw [if_neg h, abs_of_nonneg (not_lt.mp h)]

/-! ## Claim-specific comparison definitions and concrete inputs -/

/-- Following the spec's words, for comparison with `colScore`: the three
name bonuses read as additive terms (`+100` for a name containing "volt"
or "u_meas", a further `+100` for "u_meas", `+5` for "meas"), on top of
the mean bonus and the low-variance penalty. -/
def spec_additive_score (name : String) (v : List (Option ℚ)) : ℤ :=
  meanBonus (meanQ (colClean v)) +
    ((if hasSub (lowerStr name) "volt" || hasSub (lowerStr name) "u_meas" then 100 else 0) +
      (if hasSub (lowerStr name) "u_meas" then 100 else 0) +
      (if hasSub (lowerStr name) "meas" then 5 else 0)) +
    stdPenalty (colClean v)

/-- Sibling `U_meas` column of the spec's plausibility-correction example:
values `[3.1, 3.2, 3.3]`. -/
def uMeasCol : List (Option ℚ) := [some (31 / 10), some (16 / 5), some (33 / 10)]

/-- Mapped frame of the spec's plausibility-correction example: voltage
`[10000, 20000, 30000]` with a sibling `U_meas` column `[3.1, 3.2, 3.3]`. -/
def uMeasFrame : List NamedCol :=
  [("time", [some 0, some 1, some 2]),
   ("voltage", [some 10000, some 20000, some 30000]),
   ("current", [some 1, some 1, some 1]),
   ("U_meas", uMeasCol)]

/-! ### Evaluation lemmas for the spec's plausibility-correction example -/

lemma uMeas_colClean : colClean uMeasCol = [31 / 10, 16 / 5, 33 / 10] := by
  simp [colClean, uMeasCol]

lemma uMeas_colScore : colScore "U_meas" uMeasCol = 150 := by
  rw [colScore, uMeas_colClean,
    show nameBonus (lowerStr "U_meas") = 100 from by decide]
  norm_num [meanBonus, stdPenalty, meanQ, qsum, sampleVar]

lemma uMeas_scan : scanCandidates uMeasFrame = [(150, "U_meas")] := by
  norm_num [scanCandidates, uMeasFrame, uMeasCol, List.filterMap, colClean,
    colScore, meanBonus, stdPenalty, meanQ, qsum, sampleVar,
    show ("U_meas" = "voltage") = False from by simp,
    show isExcludedName (lowerStr "time") = true from by decide,
    show isExcludedName (lowerStr "current") = true from by decide,
    show isExcludedName (lowerStr "U_meas") = false from by decide,
    show nameBonus (lowerStr "U_meas") = 100 from by decide]

lemma uMeas_lookup_v : lookupCol uMeasFrame "voltage" =
    some [some 10000, some 20000, some 30000] := by
  simp [lookupCol, uMeasFrame, List.find?]

lemma uMeas_vmax : colMaxClean [some 10000, some 20000, some 30000] = some 30000 := by
  norm_num [colMaxClean, colClean, List.filterMap, max_def]

lemma uMeas_sanity : voltage_sanity uMeasFrame =
    [("time", [some 0, some 1, some 2]),
     ("bad_voltage_mapped", [some 10000, some 20000, some 30000]),
     ("current", [some 1, some 1, some 1]),
     ("voltage", uMeasCol)] := by
  simp only [voltage_sanity, uMeas_lookup_v, uMeas_vmax, uMeas_scan, bestCandidate,
    List.foldl, if_pos (show (100 : ℚ) < 30000 from by norm_num)]
  simp [renameCol, uMeasFrame]

lemma uMeas_tail : parse_cycling_tail uMeasFrame =
    [("time", [some 0, some 1, some 2]),
     ("voltage", [some (31 / 10), some (16 / 5), some (33 / 10)]),
     ("current", [some 1, some 1, some 1])] := by
  simp only [parse_cycling_tail, uMeas_sanity]
  simp [projectRequired, lookupCol, List.find?, uMeasCol, List.filterMap]

/-! ## Claims -/

/-- C1, counterexample: on the column named `U_meas` with values
`[3.1, 3.2, 3.3]` (mean 3.2, so `+50`), the corrector's score is
`50 + 100 = 150`, while the claim's additive reading of the name bonuses
(`+100` for volt-or-u_meas, plus `+100` for u_meas, plus `+5` for meas)
would give `50 + 205 = 255`: the bonuses do not double-apply. -/
theorem C1_name_bonus_not_additive_cx :
    colScore "U_meas" uMeasCol = 150 ∧ spec_additive_score "U_meas" uMeasCol = 255 ∧
      colScore "U_meas" uMeasCol ≠ spec_additive_score "U_meas" uMeasCol := by
  have h1 : colScore "U_meas" uMeasCol = 150 := uMeas_colScore
  have h2 : spec_additive_score "U_meas" uMeasCol = 255 := by
    rw [spec_additive_score, uMeas_colClean,
      show (hasSub (lowerStr "U_meas") "volt" || hasSub (lowerStr "U_meas") "u_meas") = true
        from by decide,
      show hasSub (lowerStr "U_meas") "u_meas" = true from by decide,
      show hasSub (lowerStr "U_meas") "meas" = true from by decide]
    norm_num [meanBonus, stdPenalty, meanQ, qsum, sampleVar]
  refine ⟨h1, h2, ?_⟩
  rw [h1, h2]
  norm_num

/-- C1, amended: the name bonuses of the plausibility corrector form an
`if`/`elif` chain, so they are mutually exclusive rather than additive:
the bonus never exceeds `+100`, and a name containing "u_meas" (without
"volt" or "v_meas", the source's first branch) receives exactly `+100` —
not `+200`.  The `+50`/`+20` mean bonuses and the `-50` low-variance
penalty remain separate additive terms of the total score. -/
theorem C1_name_bonus_elif_chain :
    (∀ cl : String, nameBonus cl ≤ 100) ∧
      (∀ cl : String, hasSub cl "u_meas" = true → hasSub cl "volt" = false →
        hasSub cl "v_meas" = false → nameBonus cl = 100) ∧
      (∀ (name : String) (v : List (Option ℚ)),
        colScore name v =
          meanBonus (meanQ (colClean v)) + nameBonus (lowerStr name) + stdPenalty (colClean v)) := by
  refine ⟨?_, ?_, fun name v => rfl⟩
  · intro cl
    unfold nameBonus
    split
    · exact le_refl 100
    · split
      · exact le_refl 100
      · split
        · norm_num
        · norm_num
  · intro cl h1 h2 h3
    simp [nameBonus, h1, h2, h3]

/-- C1, witness: the hypotheses of the amended theorem hold at the
concrete name `u_meas`, where the bonus evaluates to exactly `100`. -/
theorem C1_name_bonus_elif_chain_witness : nameBonus "u_meas" = 100 :=
  C1_name_bonus_elif_chain.2.1 "u_meas" (by decide) (by decide) (by decide)

/-- C2, counterexample: on the spec's own example frame (voltage
`[10000, 20000, 30000]`, sibling `U_meas` `[3.1, 3.2, 3.3]`), the parser
swaps `U_meas` into `voltage`, but the table it returns holds only the
three required columns: the displaced original voltage column (renamed
`bad_voltage_mapped` in the working frame) is not retained in the
returned table. -/
theorem C2_displaced_column_dropped_cx :
    parse_cycling_tail uMeasFrame =
      [("time", [some 0, some 1, some 2]),
       ("voltage", [some (31 / 10), some (16 / 5), some (33 / 10)]),
       ("current", [some 1, some 1, some 1])] ∧
      "bad_voltage_mapped" ∉ (parse_cycling_tail uMeasFrame).map Prod.fst := by
  refine ⟨uMeas_tail, ?_⟩
  rw [uMeas_tail]
  simp

/-- C2, amended: when the corrector replaces the voltage column, the
displaced original is retained only inside the working frame, under the
label `bad_voltage_mapped`; the table returned to the caller is the
projection onto exactly `time`, `voltage`, `current`, so the displaced
column is never part of it. -/
theorem C2_return_drops_displaced_column :
    (∀ df : List NamedCol,
        (parse_cycling_tail df).map Prod.fst = ["time", "voltage", "current"]) ∧
      "bad_voltage_mapped" ∈ (voltage_sanity uMeasFrame).map Prod.fst := by
  refine ⟨fun df => rfl, ?_⟩
  rw [uMeas_sanity]
  simp

/-- C3, counterexample: the degenerate spectrum of three
identical-frequency points satisfies the spec's stated `FitError`
condition, yet the fitter's deterministic phase accepts it and builds the
initial guess `[min Re Z, max Re Z - min Re Z, 1e-4, 10]` for the
optimizer: the source contains no such validation, and no `FitError`
exception class exists anywhere in the repository. -/
theorem C3_no_fit_error_validation_cx :
    fit_randles_setup [100, 100, 100] [1, 2, 3] [-1, -2, -3] =
        Except.ok [1, 2, 1 / 10000, 10] ∧
      spec_fit_error_condition [100, 100, 100] = true := by
  constructor
  · show Except.ok [listMinD [1, 2, 3], listMaxD [1, 2, 3] - listMinD [1, 2, 3],
      1 / 10000, 10] = Except.ok [1, 2, 1 / 10000, 10]
    norm_num [listMinD, listMaxD, min_def, max_def]
  · norm_num [spec_fit_error_condition, List.all]

/-- C3, amended: `fit_randles_circuit` performs no point-count or
identical-frequency validation — its pre-optimizer phase succeeds on
every spectrum with a nonempty real part, regardless of how few points it
has or how often a frequency repeats — and the caller's error handling is
generic: if the fitter raises any exception, `process_eis_file` still
returns the response with the diagnosis intact and `ecm_fit = None`. -/
theorem C3_fitter_error_handling :
    (∀ f zr zi : List ℚ, zr ≠ [] → ∃ x0, fit_randles_setup f zr zi = Except.ok x0) ∧
      (∀ (ny : List NyquistPoint) (d e : String),
        (assemble_eis_response (α := List ℚ) ny d (Except.error e)).ecm_fit = none ∧
          (assemble_eis_response (α := List ℚ) ny d (Except.error e)).analysis = d) := by
  constructor
  · intro f zr zi h
    cases zr with
    | nil => exact absurd rfl h
    | cons a t => exact ⟨_, rfl⟩
  · intro ny d e
    exact ⟨rfl, rfl⟩

/-- C3, witness: the amended theorem applied to the concrete single-point
spectrum `f = [1]`, `Re Z = [1]`, `Im Z = [1]`. -/
theorem C3_fitter_error_handling_witness :
    ∃ x0, fit_randles_setup [1] [1] [1] = Except.ok x0 :=
  C3_fitter_error_handling.1 [1] [1] [1] (by simp)

/-- C4: at a residual vector `[1, 1]` (stacked real/imaginary residuals
at the fitted parameters), the sum of squared residuals is `2`, but the
value the source stores as `fit_quality` — `float(res.cost)`, scipy's
`0.5 * sum(residuals^2)` — is `1`: the reported quantity is half the sum
of squared residuals, contradicting both the claim and the source's own
inline comment. -/
theorem C4_fit_quality_is_half_ssr :
    fit_quality_of (stackResiduals [1] [1]) = 1 ∧
      ssr (stackResiduals [1] [1]) = 2 ∧
      fit_quality_of (stackResiduals [1] [1]) ≠ ssr (stackResiduals [1] [1]) := by
  have h1 : fit_quality_of (stackResiduals [1] [1]) = 1 := by
    norm_num [fit_quality_of, least_squares_cost, ssr, stackResiduals, qsum]
  have h2 : ssr (stackResiduals [1] [1]) = 2 := by
    norm_num [ssr, stackResiduals, qsum]
  refine ⟨h1, h2, ?_⟩
  rw [h1, h2]
  norm_num

/-- C5: with at least two voltage samples (so `np.diff` is nonempty and
its variance is a number), the no-physics-reference branch of the safety
scorer computes, before clamping and rounding, exactly
`100 - 2 * min(40, var(diff(v)) * 10000 * 10)`: the stability penalty is
subtracted twice. -/
theorem C5_double_stability_penalty (v : List ℚ) (hv : 2 ≤ v.length) :
    safety_raw_noref v = 100 - 2 * min 40 (popVar (diffs v) * 10000 * 10) := by
  have hd : ∃ a t, diffs v = a :: t := by
    match v, hv with
    | a :: b :: t, _ => exact ⟨b - a, diffs (b :: t), rfl⟩
  obtain ⟨a, t, hd⟩ := hd
  unfold safety_raw_noref stability_penalty
  rw [hd]
  show 100 - min 40 (popVar (a :: t) * 10000 * 10) - min 40 (popVar (a :: t) * 10000 * 10) =
    100 - 2 * min 40 (popVar (a :: t) * 10000 * 10)
  ring

/-- C5, witness: the two-sample series `[3, 3]` satisfies the length
hypothesis, and the theorem instantiates to its concrete double-penalty
equation. -/
theorem C5_double_stability_penalty_witness :
    safety_raw_noref [3, 3] = 100 - 2 * min 40 (popVar (diffs [3, 3]) * 10000 * 10) :=
  C5_double_stability_penalty [3, 3] (by simp)

/-- C6: for every voltage series and every physics-reference outcome
(including none at all), the safety score is clamped to `[0, 100]` and is
an integer number of tenths, i.e. rounded to one decimal place. -/
theorem C6_safety_score_range (v : List ℚ) (phys : Option (ℕ × ℚ)) :
    0 ≤ (calculate_scientific_safety v phys).score ∧
      (calculate_scientific_safety v phys).score ≤ 100 ∧
      ∃ k : ℤ, (calculate_scientific_safety v phys).score = (k : ℚ) / 10 := by
  have hsp := stability_penalty_nonneg v
  cases phys with
  | none => exact clamp_round_props _ (by linarith)
  | some p =>
      obtain ⟨overlap, rmse⟩ := p
      simp only [calculate_scientific_safety]
      split_ifs with h
      · exact clamp_round_props _ (by linarith [rmse_penalty_nonneg rmse])
      · exact clamp_round_props _ (by linarith)

/-- C7, counterexample: on the empty table the metrics calculator does
not return the all-zero record — it fails (the embedded `IndexError` from
`time_s[0]`). -/
theorem C7_empty_metrics_cx :
    calculate_metrics [] ≠ Except.ok ⟨0, 0, 0, 0, 0⟩ := by
  intro h
  exact Except.noConfusion h

/-- C7, amended: applied to an empty input table, `calculate_metrics`
raises `IndexError` (from evaluating `time_s[0]` on an empty array)
rather than returning zeros. -/
theorem C7_empty_metrics_raises :
    calculate_metrics [] =
      Except.error "IndexError: index 0 is out of bounds for axis 0 with size 0" := rfl

/-! ### Rounding evaluation helpers -/

lemma rnd_intCast (z : ℤ) : rnd (z : ℚ) = z := by
  unfold rnd
  rw [Int.floor_intCast]
  norm_num

lemma roundTo_intCast_mul (n : ℕ) (q : ℚ) (z : ℤ) (h : q * 10 ^ n = (z : ℚ)) :
    roundTo n q = (z : ℚ) / 10 ^ n := by
  rw [roundTo, h, rnd_intCast]

/-- Concrete two-row cycling table: one hour at `1 A`, constant voltage
`3.124 V`. -/
def rows8 : List CyclingRow := [⟨0, 781 / 250, 1⟩, ⟨3600, 781 / 250, 1⟩]

/-- Metrics the source computes on `rows8`. -/
def metrics8 : CyclingMetrics := ⟨1, 781 / 250, 60, 781 / 250, 1⟩

lemma roundTo_4_one : roundTo 4 (1 : ℚ) = 1 := by
  rw [roundTo_intCast_mul 4 1 10000 (by norm_num)]
  norm_num

lemma roundTo_2_one : roundTo 2 (1 : ℚ) = 1 := by
  rw [roundTo_intCast_mul 2 1 100 (by norm_num)]
  norm_num

lemma roundTo_2_sixty : roundTo 2 (60 : ℚ) = 60 := by
  rw [roundTo_intCast_mul 2 60 6000 (by norm_num)]
  norm_num

lemma roundTo_4_v : roundTo 4 ((781 : ℚ) / 250) = 781 / 250 := by
  rw [roundTo_intCast_mul 4 (781 / 250) 31240 (by norm_num)]
  norm_num

lemma roundTo_3_v : roundTo 3 ((781 : ℚ) / 250) = 781 / 250 := by
  rw [roundTo_intCast_mul 3 (781 / 250) 3124 (by norm_num)]
  norm_num

lemma rows8_eval : calculate_metrics rows8 = Except.ok metrics8 := by
  have hsort : sortByTime [(⟨0, 781 / 250, 1⟩ : CyclingRow), ⟨3600, 781 / 250, 1⟩] =
      [(⟨0, 781 / 250, 1⟩ : CyclingRow), ⟨3600, 781 / 250, 1⟩] := by
    norm_num [sortByTime, insertByTime]
  simp only [calculate_metrics, rows8, hsort]
  norm_num [metrics8, trapz, meanQ, qsum, listMaxD, max_def, List.zip, List.zipWith,
    List.map, Function.comp, List.getLastD, List.headD,
    show |(781 : ℚ) / 250| = 781 / 250 from abs_of_pos (by norm_num),
    roundTo_4_one, roundTo_2_one, roundTo_2_sixty, roundTo_4_v, roundTo_3_v]

/-- C8, counterexample: on the concrete table `rows8` (constant voltage
`3.124 V`), the returned `avg_voltage` is `3.124 = 781/250`, which is not
an integer number of hundredths: the source rounds the average voltage to
3 decimal places, not 2 as claimed. -/
theorem C8_avg_voltage_three_decimals_cx :
    (calculate_metrics rows8).toOption.map CyclingMetrics.avg_voltage = some (781 / 250) ∧
      ¬ ∃ k : ℤ, (781 / 250 : ℚ) = (k : ℚ) / 100 := by
  constructor
  · rw [rows8_eval]
    rfl
  · rintro ⟨k, hk⟩
    rw [div_eq_div_iff (by norm_num) (by norm_num)] at hk
    have h : (78100 : ℤ) = k * 250 := by exact_mod_cast hk
    omega

/-- C8, amended: for every table on which `calculate_metrics` succeeds,
`capacity_ah` and `energy_wh` are integer multiples of `10⁻⁴`,
`duration_minutes` and `max_current` of `10⁻²`, and `avg_voltage` of
`10⁻³` — the source rounds the average voltage to 3 decimals, the rest as
the claim states. -/
theorem C8_metric_rounding_precision :
    ∀ (rows : List CyclingRow) (m : CyclingMetrics),
      calculate_metrics rows = Except.ok m →
        (∃ a : ℤ, m.capacity_ah = (a : ℚ) / 10 ^ 4) ∧
        (∃ b : ℤ, m.energy_wh = (b : ℚ) / 10 ^ 4) ∧
        (∃ c : ℤ, m.duration_minutes = (c : ℚ) / 10 ^ 2) ∧
        (∃ d : ℤ, m.avg_voltage = (d : ℚ) / 10 ^ 3) ∧
        (∃ e : ℤ, m.max_current = (e : ℚ) / 10 ^ 2) := by
  intro rows m hm
  simp only [calculate_metrics] at hm
  cases hs : sortByTime rows with
  | nil =>
      rw [hs] at hm
      exact absurd hm (by simp)
  | cons r rest =>
      rw [hs] at hm
      simp only [Except.ok.injEq] at hm
      subst hm
      exact ⟨⟨_, rfl⟩, ⟨_, rfl⟩, ⟨_, rfl⟩, ⟨_, rfl⟩, ⟨_, rfl⟩⟩

/-- C8, witness: the amended theorem instantiated at the concrete table
`rows8` and its computed metrics. -/
theorem C8_metric_rounding_precision_witness :
    (∃ a : ℤ, metrics8.capacity_ah = (a : ℚ) / 10 ^ 4) ∧
      (∃ b : ℤ, metrics8.energy_wh = (b : ℚ) / 10 ^ 4) ∧
      (∃ c : ℤ, metrics8.duration_minutes = (c : ℚ) / 10 ^ 2) ∧
      (∃ d : ℤ, metrics8.avg_voltage = (d : ℚ) / 10 ^ 3) ∧
      (∃ e : ℤ, metrics8.max_current = (e : ℚ) / 10 ^ 2) :=
  C8_metric_rounding_precision rows8 metrics8 rows8_eval

/-- C9, counterexample: the spectrum `freq = [1, 10]`, `Re Z = [5, 7]`
(given lowest-frequency first, as the diagnoser's interface permits — it
never sorts its input) has no point above `1000 Hz`; the diagnoser
reports `Estimated` with `r_ohmic = 5`, the real part of the *first*
input point, while the highest-frequency point (`10 Hz`) has `Re Z = 7`. -/
theorem C9_ohmic_estimated_first_point_cx :
    (analyze_eis_spectrum [1, 10] [5, 7] [-1, -2]).ohmic =
        ⟨"Estimated", 5⟩ ∧
      re_at_max_freq [1, 10] [5, 7] = 7 ∧
      (analyze_eis_spectrum [1, 10] [5, 7] [-1, -2]).ohmic.value_ohm ≠
        re_at_max_freq [1, 10] [5, 7] := by
  have h5 : roundTo 4 ((5 : ℚ)) = 5 := by
    rw [roundTo_intCast_mul 4 5 50000 (by norm_num)]
    norm_num
  have hmain : (analyze_eis_spectrum [1, 10] [5, 7] [-1, -2]).ohmic = ⟨"Estimated", 5⟩ := by
    norm_num [analyze_eis_spectrum, List.zip, List.zipWith, List.filter, List.headD,
      List.isEmpty, h5]
  have hre : re_at_max_freq [1, 10] [5, 7] = 7 := by
    norm_num [re_at_max_freq, argmaxIdx, argmaxGo, List.getD]
  refine ⟨hmain, hre, ?_⟩
  rw [hmain, hre]
  norm_num

/-- C9, amended: for every spectrum with no frequency strictly above
`1000 Hz`, the ohmic layer is reported with status `Estimated` and value
`Re Z` of the *first* point of the spectrum in input order (`real[0]`,
which is `0` for an empty list) — the highest-frequency point only
coincides with this when the input happens to be sorted by descending
frequency. -/
theorem C9_ohmic_estimated_first_point (freq z_real z_imag : List ℚ)
    (h : ∀ f ∈ freq, f ≤ 1000) :
    (analyze_eis_spectrum freq z_real z_imag).ohmic.status = "Estimated" ∧
      (analyze_eis_spectrum freq z_real z_imag).ohmic.value_ohm =
        roundTo 4 (z_real.headD 0) := by
  have hhigh : (freq.zip (z_real.zip z_imag)).filter (fun p => 1000 < p.1) = [] := by
    rw [List.filter_eq_nil_iff]
    intro p hp
    have hf : p.1 ∈ freq := (List.of_mem_zip hp).1
    simpa using not_lt.mpr (h p.1 hf)
  simp only [analyze_eis_spectrum, hhigh, List.isEmpty_nil]
  simp

/-- C9, witness: the hypothesis holds at the concrete one-point spectrum
`freq = [1]`, `Re Z = [5]`, `Im Z = [-1]`. -/
theorem C9_ohmic_estimated_first_point_witness :
    (analyze_eis_spectrum [1] [5] [-1]).ohmic.status = "Estimated" ∧
      (analyze_eis_spectrum [1] [5] [-1]).ohmic.value_ohm =
        roundTo 4 (([5] : List ℚ).headD 0) :=
  C9_ohmic_estimated_first_point [1] [5] [-1] (by norm_num)

/-- C10: every point emitted by the Nyquist formatting loop and every
point of the reconstructed fit curve carries
`y_plot = (-z_imag if z_imag < 0 else z_imag) = |z_imag|`, hence a
nonnegative plot ordinate. -/
theorem C10_y_plot_is_abs (pts samples : List (ℚ × ℚ × ℚ)) (p : NyquistPoint)
    (hp : p ∈ format_nyquist_data pts ∨ p ∈ format_fit_curve samples) :
    p.y_plot = |p.z_imag| ∧ 0 ≤ p.y_plot := by
  rcases hp with hp | hp
  · obtain ⟨t, _, rfl⟩ := List.mem_map.mp hp
    have h := if_lt_zero_neg_eq_abs t.2.2
    refine ⟨h, ?_⟩
    show 0 ≤ if t.2.2 < 0 then -t.2.2 else t.2.2
    rw [h]
    exact abs_nonneg t.2.2
  · obtain ⟨t, _, rfl⟩ := List.mem_map.mp hp
    have h := if_lt_zero_neg_eq_abs t.2.2
    refine ⟨h, ?_⟩
    show 0 ≤ if t.2.2 < 0 then -t.2.2 else t.2.2
    rw [h]
    exact abs_nonneg t.2.2

/-- C10, witness: the membership hypothesis holds for the concrete parsed
point `(freq, Re Z, Im Z) = (1, 2, -3)`, formatted as `y_plot = 3`. -/
theorem C10_y_plot_is_abs_witness :
    (⟨1, 2, -3, 3⟩ : NyquistPoint).y_plot = |(⟨1, 2, -3, 3⟩ : NyquistPoint).z_imag| ∧
      0 ≤ (⟨1, 2, -3, 3⟩ : NyquistPoint).y_plot :=
  C10_y_plot_is_abs [(1, 2, -3)] [] ⟨1, 2, -3, 3⟩
    (Or.inl (by norm_num [format_nyquist_data, y_plot_of]))
